import Mathlib

/-!
Verification of the phase-orchestration script
`TestCases/py_wrapper/adap_amg/launch_adap.py` (SU2 / AMG adaptation
interface).  The script's `main` is embedded shallowly: calls into the
opaque SU2 driver objects become events in a trace, the driver's replies
become oracle functions supplied in a `DriverState` / `ErrorDriverState`,
and the two `while` loops become fuel-structural recursions (fuel
`nTimeIter - TimeIter` reproduces the `while TimeIter < nTimeIter`
guard exactly).
-/

/-- One observable call from the script into the SU2 wrapper objects.
`diagnostic b` records the mismatch message printed in the
`except TypeError` handlers; `b` is the `options.with_MPI` flag, which
selects between the "serial build, remove --parallel" text (`true`) and
the "parallel build, add --parallel" text (`false`). -/
inductive Event where
  | diagnostic (withMPI : Bool)
  | getAllBoundaryMarkersTag
  | getAllBoundaryMarkers
  | getNumberVertices (markerID : Nat)
  | getNumberHaloVertices (markerID : Nat)
  | directIteration (iter : Nat)
  | preprocess (iter : Nat)
  | run
  | postprocess
  | update
  | monitor (iter : Nat)
  | output (iter : Nat)
  | computeMetric
  | setAdaptationData
  | getnPointDomain
  | getnVarPar
  | getAdaptationData (iVar : Nat) (iPoint : Nat)
  | postprocessing
  deriving DecidableEq

/-- Result of attempting `pysu2ad.CDiscAdjSinglezoneDriver(...)` or
`pysu2ad.CErrorEstimationDriver(...)`: success, a `TypeError` (the only
exception the script catches), or any other exception. -/
inductive ConstructResult where
  | ok
  | typeError
  | otherError
  deriving DecidableEq

/-- How the run ends: `finished` (fell off the end of `main`),
`earlyReturn` (the `return` inside an `except TypeError` handler),
`exn` (an uncaught exception propagated out of `main`). -/
inductive Outcome where
  | finished
  | earlyReturn
  | exn
  deriving DecidableEq

/-- Oracle for the replies of the direct driver `SU2Driver`.
`extIter1`/`nExtIter1` are the values of `GetExtIter()`/`GetnExtIter()`
read before the direct loop (line 122-123), `extIter2`/`nExtIter2`
the values re-read before the adjoint loop (line 141-142). -/
structure DriverState where
  markerTags : List String
  markerIDs : List (String × Nat)
  numVertices : Nat → Nat
  numHaloVertices : Nat → Nat
  extIter1 : Nat
  nExtIter1 : Nat
  directStop : Nat → Bool
  extIter2 : Nat
  nExtIter2 : Nat
  monitorStop : Nat → Bool
  nPointDomain : Nat → Nat → Nat → Nat

/-- Oracle for the replies of the error-estimation driver `SU2Error`.
The field `localPointCount` is not used by the script.  Modelled from
the spec: the spec credits the Error-Estimation Driver with a
`getLocalPointCount(...)` capability (the C++ `CErrorEstimationDriver`
is not part of this repository's sources); the field stands for the
value that capability would report, so that claims about where the
extraction sizes come from can be settled. -/
structure ErrorDriverState where
  nVarPar : Nat
  adaptationData : Nat → Nat → Int
  localPointCount : Nat

/-- Inputs of one run of `main`: the `--parallel` flag, the outcome of
the two driver constructions, and the two driver oracles. -/
structure Config where
  withMPI : Bool
  directConstruct : ConstructResult
  errorConstruct : ConstructResult
  driver : DriverState
  errDriver : ErrorDriverState

/-- What a run of `main` produces: the trace of driver calls, how the
run ended, and the `Sol` array when the extraction step was reached. -/
structure RunResult where
  trace : List Event
  outcome : Outcome
  sol : Option (List (List Int))

/-- Lines 98-109: `MarkerID = None`; then
`if MarkerName in MarkerList and MarkerName in allMarkerIDs.keys():
MarkerID = allMarkerIDs[MarkerName]`. -/
def markerID (d : DriverState) (name : String) : Option Nat :=
  if name ∈ d.markerTags ∧ (d.markerIDs.lookup name).isSome then
    d.markerIDs.lookup name
  else
    none

/-- Lines 112-119: the three counters start at `0`; when `MarkerID` is
resolved they become `GetNumberVertices`, `GetNumberHaloVertices` and
their difference (Python `int` subtraction, hence `Int`).  The triple
is `(total, halo, physical)`. -/
def markerCounts (d : DriverState) (name : String) : Int × Int × Int :=
  match markerID d name with
  | none => (0, 0, 0)
  | some m =>
    ((d.numVertices m : Int), (d.numHaloVertices m : Int),
      (d.numVertices m : Int) - (d.numHaloVertices m : Int))

/-- Lines 132-138, one unrolling per unit of fuel:
`while TimeIter < nTimeIter: stopCalc = SU2Driver.DirectIteration(TimeIter);
if stopCalc: break; TimeIter += 1`. -/
def directLoopAux (stop : Nat → Bool) : Nat → Nat → List Event
  | 0, _ => []
  | fuel + 1, t =>
    if stop t then [Event.directIteration t]
    else Event.directIteration t :: directLoopAux stop fuel (t + 1)

/-- The direct-phase loop with guard `TimeIter < nTimeIter`, via fuel
`nTimeIter - TimeIter`. -/
def directLoop (stop : Nat → Bool) (t n : Nat) : List Event :=
  directLoopAux stop (n - t) t

/-- The six driver calls of one adjoint iteration, lines 152-163:
`Preprocess(TimeIter); Run(); Postprocess(); Update();
stopCalc = Monitor(TimeIter); Output(TimeIter)`. -/
def adjBlock (i : Nat) : List Event :=
  [Event.preprocess i, Event.run, Event.postprocess, Event.update,
    Event.monitor i, Event.output i]

/-- Lines 150-167, one unrolling per unit of fuel; note the `break`
comes after `Output(TimeIter)`, so the block is emitted whole even on
the stopping iteration. -/
def adjointLoopAux (stop : Nat → Bool) : Nat → Nat → List Event
  | 0, _ => []
  | fuel + 1, t =>
    if stop t then adjBlock t
    else adjBlock t ++ adjointLoopAux stop fuel (t + 1)

/-- The adjoint-phase loop with guard `TimeIter < nTimeIter`, via fuel
`nTimeIter - TimeIter`. -/
def adjointLoop (stop : Nat → Bool) (t n : Nat) : List Event :=
  adjointLoopAux stop (n - t) t

/-- Number of iterations either loop shape performs: one step per unit
of fuel until the stop signal, which ends the loop after its step. -/
def stepsAux (stop : Nat → Bool) : Nat → Nat → Nat
  | 0, _ => 0
  | fuel + 1, t => if stop t then 1 else stepsAux stop fuel (t + 1) + 1

/-- Steps taken by the direct loop = number of `DirectIteration` calls. -/
def directSteps (stop : Nat → Bool) (t n : Nat) : Nat :=
  (directLoop stop t n).length

/-- Recognizes the `Preprocess` call that opens an adjoint iteration. -/
def isPreprocessEv : Event → Bool
  | Event.preprocess _ => true
  | _ => false

/-- Steps taken by the adjoint loop = number of `Preprocess` calls. -/
def adjointSteps (stop : Nat → Bool) (t n : Nat) : Nat :=
  (adjointLoop stop t n).countP isPreprocessEv

/-- One assignment `Sol[iPoint, iVar] = v` on the list-of-rows array. -/
def setCell (a : List (List Int)) (iPoint iVar : Nat) (v : Int) : List (List Int) :=
  a.set iPoint ((a.getD iPoint []).set iVar v)

/-- Lines 196-199: `Sol = np.zeros((nPoint_Local, nVar_Par))` followed by
`for iPoint in range(nPoint_Local): for iVar in range(nVar_Par):
Sol[iPoint, iVar] = SU2Error.GetAdaptationData(iVar, iPoint)`. -/
def SolRun (nPoint nVar : Nat) (adaptationData : Nat → Nat → Int) : List (List Int) :=
  (List.range nPoint).foldl
    (fun sol iPoint =>
      (List.range nVar).foldl
        (fun sol iVar => setCell sol iPoint iVar (adaptationData iVar iPoint)) sol)
    (List.replicate nPoint (List.replicate nVar 0))

/-- Lines 102-119: the two marker queries, then the two vertex-count
queries exactly when the marker resolved on this rank. -/
def markerEvents (d : DriverState) : List Event :=
  Event.getAllBoundaryMarkersTag :: Event.getAllBoundaryMarkers ::
    (match markerID d "airfoil" with
     | none => []
     | some m => [Event.getNumberVertices m, Event.getNumberHaloVertices m])

/-- Driver calls from a successful direct-driver construction up to the
error-estimation driver construction: marker resolution, the direct
loop, the adjoint loop. -/
def solvePhasesEvents (d : DriverState) : List Event :=
  markerEvents d ++ directLoop d.directStop d.extIter1 d.nExtIter1 ++
    adjointLoop d.monitorStop d.extIter2 d.nExtIter2

/-- Lines 197-199: the scalar fetches of the extraction loop, in
program order (outer loop over points, inner over variables; note the
call is `GetAdaptationData(iVar, iPoint)`). -/
def extractionEvents (nPoint nVar : Nat) : List Event :=
  (List.range nPoint).flatMap
    (fun iPoint => (List.range nVar).map (fun iVar => Event.getAdaptationData iVar iPoint))

/-- Lines 187-203: `ComputeMetric(); SetAdaptationData();
nPoint_Local = SU2Driver.GetnPointDomain(0, 0, 0);
nVar_Par = SU2Error.GetnVarPar()`; the extraction loop; then
`SU2Driver.Postprocessing()`. -/
def errorPhaseEvents (cfg : Config) : List Event :=
  Event.computeMetric :: Event.setAdaptationData ::
    Event.getnPointDomain :: Event.getnVarPar ::
    (extractionEvents (cfg.driver.nPointDomain 0 0 0) cfg.errDriver.nVarPar ++
      [Event.postprocessing])

/-- The whole of `main` (lines 88-206).  A `TypeError` at either
construction point prints the mismatch diagnostic selected by
`options.with_MPI` and returns; any other exception propagates uncaught
at that point; otherwise the phases run in the fixed order of the
script. -/
def mainRun (cfg : Config) : RunResult :=
  match cfg.directConstruct with
  | ConstructResult.typeError =>
    ⟨[Event.diagnostic cfg.withMPI], Outcome.earlyReturn, none⟩
  | ConstructResult.otherError => ⟨[], Outcome.exn, none⟩
  | ConstructResult.ok =>
    match cfg.errorConstruct with
    | ConstructResult.typeError =>
      ⟨solvePhasesEvents cfg.driver ++ [Event.diagnostic cfg.withMPI],
        Outcome.earlyReturn, none⟩
    | ConstructResult.otherError =>
      ⟨solvePhasesEvents cfg.driver, Outcome.exn, none⟩
    | ConstructResult.ok =>
      ⟨solvePhasesEvents cfg.driver ++ errorPhaseEvents cfg, Outcome.finished,
        some (SolRun (cfg.driver.nPointDomain 0 0 0) cfg.errDriver.nVarPar
          cfg.errDriver.adaptationData)⟩

/-- The driver values of Scenario D: variable `iVar` at point `iPoint`
is entry `[iPoint][iVar]` of `[[1,2],[3,4],[5,6]]`. -/
def scenarioD : Nat → Nat → Int :=
  fun iVar iPoint =>
    (([[1, 2], [3, 4], [5, 6]] : List (List Int)).getD iPoint []).getD iVar 0

/-- Events belonging to the part of the script between the two driver
constructions: marker resolution, the direct loop, the adjoint loop. -/
def isSolveEv : Event → Bool
  | Event.getAllBoundaryMarkersTag => true
  | Event.getAllBoundaryMarkers => true
  | Event.getNumberVertices _ => true
  | Event.getNumberHaloVertices _ => true
  | Event.directIteration _ => true
  | Event.preprocess _ => true
  | Event.run => true
  | Event.postprocess => true
  | Event.update => true
  | Event.monitor _ => true
  | Event.output _ => true
  | _ => false

/-- Events of the three phases (direct, adjoint, error estimation):
every driver call other than the marker queries and the diagnostic. -/
def isPhaseEv : Event → Bool
  | Event.directIteration _ => true
  | Event.preprocess _ => true
  | Event.run => true
  | Event.postprocess => true
  | Event.update => true
  | Event.monitor _ => true
  | Event.output _ => true
  | Event.computeMetric => true
  | Event.setAdaptationData => true
  | Event.getnPointDomain => true
  | Event.getnVarPar => true
  | Event.getAdaptationData _ _ => true
  | Event.postprocessing => true
  | _ => false

/-- Events of the error-estimation phase (lines 187-203). -/
def isErrorPhaseEv : Event → Bool
  | Event.computeMetric => true
  | Event.setAdaptationData => true
  | Event.getnPointDomain => true
  | Event.getnVarPar => true
  | Event.getAdaptationData _ _ => true
  | Event.postprocessing => true
  | _ => false

/-- A sample driver oracle: `airfoil` resolves to marker 3 with 8 total
and 2 halo vertices, the direct loop runs from iteration 0 to 2, the
adjoint loop from 0 to 1, and `GetnPointDomain(0,0,0)` reports 2. -/
def sampleDriver : DriverState :=
  ⟨["airfoil", "farfield"], [("airfoil", 3)],
    fun _ => 8, fun _ => 2,
    0, 2, fun _ => false,
    0, 1, fun _ => false,
    fun _ _ _ => 2⟩

/-- A sample error-estimation oracle with 2 adaptation variables; its
spec-modelled local point count (3) deliberately differs from the 2
points the direct driver reports. -/
def sampleErrDriver : ErrorDriverState :=
  ⟨2, fun iVar iPoint => (iVar : Int) + 2 * (iPoint : Int), 3⟩

/-- A run in which both constructions succeed. -/
def cfgOk : Config :=
  ⟨false, ConstructResult.ok, ConstructResult.ok, sampleDriver, sampleErrDriver⟩

/-- Scenario C driver: `airfoil` is in the global tag list but not in
this rank's marker mapping. -/
def dScenC : DriverState :=
  ⟨["airfoil"], [], fun _ => 0, fun _ => 0, 0, 0, fun _ => false, 0, 0,
    fun _ => false, fun _ _ _ => 0⟩

/-- A run on the Scenario C driver, both constructions succeeding. -/
def cfgScenC : Config :=
  ⟨false, ConstructResult.ok, ConstructResult.ok, dScenC, sampleErrDriver⟩

/-- A driver whose replies are inconsistent: 5 halo vertices on a
marker with only 3 vertices in total. -/
def dBad : DriverState :=
  ⟨["airfoil"], [("airfoil", 7)], fun _ => 3, fun _ => 5, 0, 0,
    fun _ => false, 0, 0, fun _ => false, fun _ _ _ => 0⟩

/-- A run on the inconsistent driver, both constructions succeeding. -/
def cfgBad : Config :=
  ⟨false, ConstructResult.ok, ConstructResult.ok, dBad, sampleErrDriver⟩

/-- A run whose direct-driver construction raises `TypeError`, with
`--parallel` given. -/
def cfgTypeErr : Config :=
  ⟨true, ConstructResult.typeError, ConstructResult.ok, sampleDriver,
    sampleErrDriver⟩

/-- A run whose direct-driver construction raises an exception other
than `TypeError`. -/
def cfgOtherErr : Config :=
  ⟨false, ConstructResult.otherError, ConstructResult.ok, sampleDriver,
    sampleErrDriver⟩

/-- A run whose error-estimation-driver construction raises
`TypeError`. -/
def cfgErrTypeErr : Config :=
  ⟨false, ConstructResult.ok, ConstructResult.typeError, sampleDriver,
    sampleErrDriver⟩

/-- A run whose error-estimation-driver construction raises an
exception other than `TypeError`. -/
def cfgErrOtherErr : Config :=
  ⟨false, ConstructResult.ok, ConstructResult.otherError, sampleDriver,
    sampleErrDriver⟩

/-- Stop signal that fires on iteration 1. -/
def stopAt1 : Nat → Bool := fun j => j == 1

/-! ### Generic list helpers -/

theorem set_append_of_le {α : Type} :
    ∀ (l₁ l₂ : List α) (n : Nat) (x : α), l₁.length ≤ n →
      (l₁ ++ l₂).set n x = l₁ ++ l₂.set (n - l₁.length) x
  | [], _, _, _, _ => by simp
  | _ :: l₁, _, 0, _, h => by simp at h
  | a :: l₁, l₂, n + 1, x, h => by
    simp only [List.cons_append, List.set_cons_succ, List.length_cons,
      Nat.succ_sub_succ]
    exact congrArg (a :: ·) (set_append_of_le l₁ l₂ n x (Nat.le_of_succ_le_succ h))

theorem getD_set_self {α : Type} :
    ∀ (l : List α) (i : Nat) (r d : α), i < l.length → (l.set i r).getD i d = r
  | _ :: _, 0, _, _, _ => rfl
  | _ :: l, i + 1, r, d, h => getD_set_self l i r d (Nat.lt_of_succ_lt_succ h)

theorem drop_set_zero {α : Type} :
    ∀ (l : List α) (m : Nat) (x : α), m < l.length →
      (l.drop m).set 0 x = x :: l.drop (m + 1)
  | _ :: _, 0, _, _ => rfl
  | _ :: l, m + 1, x, h => drop_set_zero l m x (Nat.lt_of_succ_lt_succ h)

theorem range'_map_getD {α : Type} (f : Nat → α) (d : α) :
    ∀ (len s i : Nat), i < len → ((List.range' s len).map f).getD i d = f (s + i)
  | 0, _, _, h => absurd h (Nat.not_lt_zero _)
  | _ + 1, _, 0, _ => rfl
  | len + 1, s, i + 1, h => by
    have hrec := range'_map_getD f d len (s + 1) i (Nat.lt_of_succ_lt_succ h)
    have : s + 1 + i = s + (i + 1) := by omega
    rw [← this]
    exact hrec

theorem range_map_getD {α : Type} (f : Nat → α) (d : α) (n i : Nat) (h : i < n) :
    ((List.range n).map f).getD i d = f i := by
  rw [List.range_eq_range']
  simpa using range'_map_getD f d n 0 i h

/-! ### Step counts of the two while-loops -/

theorem stepsAux_le (stop : Nat → Bool) :
    ∀ (fuel t : Nat), stepsAux stop fuel t ≤ fuel
  | 0, _ => Nat.le_refl 0
  | fuel + 1, t => by
    unfold stepsAux
    split
    · exact Nat.succ_le_succ (Nat.zero_le fuel)
    · exact Nat.succ_le_succ (stepsAux_le stop fuel (t + 1))

theorem stepsAux_stop_le (stop : Nat → Bool) :
    ∀ (fuel t j : Nat), t ≤ j → stop j = true → stepsAux stop fuel t ≤ j - t + 1
  | 0, _, _, _, _ => Nat.zero_le _
  | fuel + 1, t, j, htj, hj => by
    unfold stepsAux
    split
    · exact Nat.succ_le_succ (Nat.zero_le _)
    · rename_i h
      have htj' : t + 1 ≤ j := by
        rcases Nat.lt_or_ge t j with h' | h'
        · exact h'
        · have : t = j := Nat.le_antisymm htj h'
          subst this
          simp [hj] at h
      have hrec := stepsAux_stop_le stop fuel (t + 1) j htj' hj
      omega

theorem stepsAux_first_stop (stop : Nat → Bool) (fuel t : Nat)
    (h : stop t = true) (hf : 0 < fuel) : stepsAux stop fuel t = 1 := by
  cases fuel with
  | zero => exact absurd hf (Nat.lt_irrefl 0)
  | succ fuel => simp [stepsAux, h]

theorem directLoopAux_length (stop : Nat → Bool) :
    ∀ (fuel t : Nat), (directLoopAux stop fuel t).length = stepsAux stop fuel t
  | 0, _ => rfl
  | fuel + 1, t => by
    unfold directLoopAux stepsAux
    split
    · rfl
    · simp [directLoopAux_length stop fuel (t + 1)]

theorem directLoopAux_eq_map (stop : Nat → Bool) :
    ∀ (fuel t : Nat),
      directLoopAux stop fuel t =
        (List.range' t (stepsAux stop fuel t)).map Event.directIteration
  | 0, _ => rfl
  | fuel + 1, t => by
    unfold directLoopAux stepsAux
    split
    · rfl
    · rw [directLoopAux_eq_map stop fuel (t + 1)]
      rfl

theorem adjointLoopAux_eq_flatMap (stop : Nat → Bool) :
    ∀ (fuel t : Nat),
      adjointLoopAux stop fuel t =
        (List.range' t (stepsAux stop fuel t)).flatMap adjBlock
  | 0, _ => rfl
  | fuel + 1, t => by
    unfold adjointLoopAux stepsAux
    split
    · simp [List.range'_succ]
    · rw [adjointLoopAux_eq_flatMap stop fuel (t + 1)]
      simp [List.range'_succ]

theorem countP_adjBlock (i : Nat) : (adjBlock i).countP isPreprocessEv = 1 := by
  simp [adjBlock, isPreprocessEv, List.countP_cons]

theorem adjointLoopAux_countP (stop : Nat → Bool) :
    ∀ (fuel t : Nat),
      (adjointLoopAux stop fuel t).countP isPreprocessEv = stepsAux stop fuel t
  | 0, _ => rfl
  | fuel + 1, t => by
    unfold adjointLoopAux stepsAux
    split
    · exact countP_adjBlock t
    · rw [List.countP_append, countP_adjBlock,
        adjointLoopAux_countP stop fuel (t + 1)]
      omega

theorem directSteps_eq (stop : Nat → Bool) (t n : Nat) :
    directSteps stop t n = stepsAux stop (n - t) t :=
  directLoopAux_length stop (n - t) t

theorem adjointSteps_eq (stop : Nat → Bool) (t n : Nat) :
    adjointSteps stop t n = stepsAux stop (n - t) t :=
  adjointLoopAux_countP stop (n - t) t

/-! ### The extraction fold computes the full table -/

theorem foldl_set_range {α : Type} (f : Nat → α) :
    ∀ (m : Nat) (r : List α), m ≤ r.length →
      (List.range m).foldl (fun acc j => acc.set j (f j)) r =
        (List.range m).map f ++ r.drop m
  | 0, r, _ => by simp
  | m + 1, r, h => by
    have hm : m ≤ r.length := Nat.le_of_succ_le h
    rw [List.range_succ, List.foldl_append, List.map_append,
      foldl_set_range f m r hm]
    simp only [List.foldl_cons, List.foldl_nil, List.map_cons, List.map_nil]
    rw [set_append_of_le _ _ _ _ (by simp)]
    rw [List.length_map, List.length_range, Nat.sub_self,
      drop_set_zero r m (f m) h]
    simp

theorem foldl_setCell_eq_set (g : Nat → Int) (iPt : Nat) :
    ∀ (vs : List Nat) (a : List (List Int)) (r : List Int), iPt < a.length →
      vs.foldl (fun acc j => setCell acc iPt j (g j)) (a.set iPt r) =
        a.set iPt (vs.foldl (fun row j => row.set j (g j)) r)
  | [], _, _, _ => by simp
  | j :: vs, a, r, h => by
    simp only [List.foldl_cons]
    have h1 : setCell (a.set iPt r) iPt j (g j) = a.set iPt (r.set j (g j)) := by
      unfold setCell
      rw [getD_set_self a iPt r [] h, List.set_set]
    rw [h1]
    exact foldl_setCell_eq_set g iPt vs a (r.set j (g j)) h

theorem SolRun_aux (n m : Nat) (ed : Nat → Nat → Int) :
    ∀ (k : Nat), k ≤ n →
      (List.range k).foldl
        (fun sol iPoint =>
          (List.range m).foldl
            (fun sol iVar => setCell sol iPoint iVar (ed iVar iPoint)) sol)
        (List.replicate n (List.replicate m 0)) =
      (List.range k).map (fun i => (List.range m).map (fun j => ed j i)) ++
        List.replicate (n - k) (List.replicate m 0)
  | 0, _ => by simp
  | k + 1, h => by
    have hk : k ≤ n := Nat.le_of_succ_le h
    rw [List.range_succ, List.foldl_append, List.map_append,
      SolRun_aux n m ed k hk]
    simp only [List.foldl_cons, List.foldl_nil, List.map_cons, List.map_nil]
    have hrep : List.replicate (n - k) (List.replicate m (0 : Int)) =
        List.replicate m (0 : Int) :: List.replicate (n - (k + 1)) (List.replicate m 0) := by
      have hnk : n - k = (n - (k + 1)) + 1 := by omega
      rw [hnk, List.replicate_succ]
    rw [hrep]
    have hlenB : ((List.range k).map
        (fun i => (List.range m).map (fun j => ed j i))).length = k := by simp
    have hset : (List.range k).map (fun i => (List.range m).map (fun j => ed j i)) ++
        List.replicate m (0 : Int) :: List.replicate (n - (k + 1)) (List.replicate m 0) =
        ((List.range k).map (fun i => (List.range m).map (fun j => ed j i)) ++
          List.replicate m (0 : Int) :: List.replicate (n - (k + 1))
            (List.replicate m 0)).set k (List.replicate m 0) := by
      rw [set_append_of_le _ _ _ _ (Nat.le_of_eq hlenB)]
      rw [hlenB, Nat.sub_self, List.set_cons_zero]
    rw [hset]
    rw [foldl_setCell_eq_set (fun j => ed j k) k (List.range m) _ _ (by simp)]
    rw [foldl_set_range (fun j => ed j k) m (List.replicate m 0) (by simp)]
    have hdrop : (List.replicate m (0 : Int)).drop m = [] := by simp
    rw [hdrop, List.append_nil]
    rw [set_append_of_le _ _ _ _ (Nat.le_of_eq hlenB), hlenB, Nat.sub_self,
      List.set_cons_zero]
    simp

theorem SolRun_eq (n m : Nat) (ed : Nat → Nat → Int) :
    SolRun n m ed =
      (List.range n).map (fun i => (List.range m).map (fun j => ed j i)) := by
  have h := SolRun_aux n m ed n (Nat.le_refl n)
  simpa [SolRun] using h

theorem SolRun_length (n m : Nat) (ed : Nat → Nat → Int) :
    (SolRun n m ed).length = n := by
  simp [SolRun_eq]

theorem SolRun_row_length (n m : Nat) (ed : Nat → Nat → Int) :
    ∀ row ∈ SolRun n m ed, row.length = m := by
  rw [SolRun_eq]
  intro row hrow
  rcases List.mem_map.mp hrow with ⟨i, _, hi⟩
  simp [← hi]

theorem SolRun_getD (n m : Nat) (ed : Nat → Nat → Int) (i j : Nat)
    (hi : i < n) (hj : j < m) :
    ((SolRun n m ed).getD i []).getD j 0 = ed j i := by
  rw [SolRun_eq, range_map_getD _ _ n i hi, range_map_getD _ _ m j hj]

/-! ### What kinds of events the trace segments hold -/

theorem mem_directLoopAux {stop : Nat → Bool} {e : Event} :
    ∀ {fuel t : Nat}, e ∈ directLoopAux stop fuel t →
      ∃ i, e = Event.directIteration i := by
  intro fuel
  induction fuel with
  | zero => intro t h; simp [directLoopAux] at h
  | succ fuel ih =>
    intro t h
    unfold directLoopAux at h
    split at h
    · simp at h
      exact ⟨t, h⟩
    · rcases List.mem_cons.mp h with h | h
      · exact ⟨t, h⟩
      · exact ih h

theorem mem_adjBlock {e : Event} {i : Nat} (h : e ∈ adjBlock i) :
    e = Event.preprocess i ∨ e = Event.run ∨ e = Event.postprocess ∨
      e = Event.update ∨ e = Event.monitor i ∨ e = Event.output i := by
  simpa [adjBlock] using h

theorem mem_adjointLoopAux {stop : Nat → Bool} {e : Event} :
    ∀ {fuel t : Nat}, e ∈ adjointLoopAux stop fuel t → ∃ i, e ∈ adjBlock i := by
  intro fuel
  induction fuel with
  | zero => intro t h; simp [adjointLoopAux] at h
  | succ fuel ih =>
    intro t h
    unfold adjointLoopAux at h
    split at h
    · exact ⟨t, h⟩
    · rcases List.mem_append.mp h with h | h
      · exact ⟨t, h⟩
      · exact ih h

theorem mem_markerEvents {d : DriverState} {e : Event} (h : e ∈ markerEvents d) :
    e = Event.getAllBoundaryMarkersTag ∨ e = Event.getAllBoundaryMarkers ∨
      ∃ m, markerID d "airfoil" = some m ∧
        (e = Event.getNumberVertices m ∨ e = Event.getNumberHaloVertices m) := by
  unfold markerEvents at h
  cases hm : markerID d "airfoil" with
  | none =>
    rw [hm] at h
    simp at h
    tauto
  | some m =>
    rw [hm] at h
    simp at h
    rcases h with h | h | h | h
    · tauto
    · tauto
    · exact Or.inr (Or.inr ⟨m, rfl, Or.inl h⟩)
    · exact Or.inr (Or.inr ⟨m, rfl, Or.inr h⟩)

theorem isSolveEv_of_mem_solvePhases {d : DriverState} {e : Event}
    (h : e ∈ solvePhasesEvents d) : isSolveEv e = true := by
  unfold solvePhasesEvents at h
  simp only [List.mem_append] at h
  rcases h with (h | h) | h
  · rcases mem_markerEvents h with h | h | ⟨m, _, h | h⟩ <;> subst h <;> rfl
  · rcases mem_directLoopAux h with ⟨i, rfl⟩
    rfl
  · rcases mem_adjointLoopAux h with ⟨i, hi⟩
    rcases mem_adjBlock hi with h | h | h | h | h | h <;> subst h <;> rfl

theorem mem_extractionEvents {e : Event} {nP nV : Nat}
    (h : e ∈ extractionEvents nP nV) :
    ∃ v p, v < nV ∧ p < nP ∧ e = Event.getAdaptationData v p := by
  unfold extractionEvents at h
  rcases List.mem_flatMap.mp h with ⟨p, hp, hmem⟩
  rcases List.mem_map.mp hmem with ⟨v, hv, he⟩
  exact ⟨v, p, List.mem_range.mp hv, List.mem_range.mp hp, he.symm⟩

theorem isErrorPhaseEv_of_mem_errorPhase {cfg : Config} {e : Event}
    (h : e ∈ errorPhaseEvents cfg) : isErrorPhaseEv e = true := by
  unfold errorPhaseEvents at h
  simp only [List.mem_cons, List.mem_append, List.mem_singleton] at h
  rcases h with rfl | rfl | rfl | rfl | h | rfl | h
  · rfl
  · rfl
  · rfl
  · rfl
  · rcases mem_extractionEvents h with ⟨v, p, _, _, rfl⟩
    rfl
  · rfl
  · simp at h

theorem solve_not_errorPhase {e : Event} (h : isSolveEv e = true) :
    isErrorPhaseEv e = false := by
  cases e <;> simp [isSolveEv, isErrorPhaseEv] at *

theorem errorPhase_not_solve {e : Event} (h : isErrorPhaseEv e = true) :
    isSolveEv e = false := by
  cases e <;> simp [isSolveEv, isErrorPhaseEv] at *

/-! ### The claims -/

/-- Claim C1: whenever a run reaches the extraction step, the
Adaptation Dataset `Sol` has exactly `nPointLocal` rows of
`nVarPar` entries each, sized by what the drivers report at extraction
time, and cell `(iPoint, iVar)` holds the driver value for variable
`iVar` at point `iPoint`; and on Scenario D's values
`[[1,2],[3,4],[5,6]]` with 3 points and 2 variables the extraction
produces exactly that 3×2 arrangement, untransposed. -/
theorem claim_C1 :
    (∀ cfg : Config, cfg.directConstruct = ConstructResult.ok →
      cfg.errorConstruct = ConstructResult.ok →
      ∃ sol, (mainRun cfg).sol = some sol ∧
        sol.length = cfg.driver.nPointDomain 0 0 0 ∧
        (∀ row ∈ sol, row.length = cfg.errDriver.nVarPar) ∧
        (∀ iPoint iVar, iPoint < cfg.driver.nPointDomain 0 0 0 →
          iVar < cfg.errDriver.nVarPar →
          (sol.getD iPoint []).getD iVar 0 =
            cfg.errDriver.adaptationData iVar iPoint)) ∧
    SolRun 3 2 scenarioD = [[1, 2], [3, 4], [5, 6]] := by
  constructor
  · rintro ⟨mpi, dc, ec, d, edrv⟩ hdc hec
    replace hdc : dc = ConstructResult.ok := hdc
    replace hec : ec = ConstructResult.ok := hec
    subst hdc
    subst hec
    refine ⟨SolRun (d.nPointDomain 0 0 0) edrv.nVarPar edrv.adaptationData,
      rfl, SolRun_length _ _ _, SolRun_row_length _ _ _, ?_⟩
    intro iPoint iVar hi hj
    exact SolRun_getD _ _ _ iPoint iVar hi hj
  · decide

/-- Witness for C1 at a concrete successful run. -/
theorem claim_C1_witness :
    ∃ sol, (mainRun cfgOk).sol = some sol ∧
      sol.length = cfgOk.driver.nPointDomain 0 0 0 ∧
      (∀ row ∈ sol, row.length = cfgOk.errDriver.nVarPar) ∧
      (∀ iPoint iVar, iPoint < cfgOk.driver.nPointDomain 0 0 0 →
        iVar < cfgOk.errDriver.nVarPar →
        (sol.getD iPoint []).getD iVar 0 =
          cfgOk.errDriver.adaptationData iVar iPoint) :=
  claim_C1.1 cfgOk rfl rfl

/-- Claim C2: each adjoint iteration is exactly the six-stage block
`preprocess(iter); advance; postprocess; update; monitor(iter);
output(iter)` in strict order with no stage skipped — the loop trace is
the concatenation of these blocks — and whenever `monitor i` was called
(in particular on the iteration whose monitor returned the stop
signal), `output i` for the same `i` is in the trace. -/
theorem claim_C2 (stop : Nat → Bool) (t n : Nat) :
    adjointLoop stop t n =
      (List.range' t (adjointSteps stop t n)).flatMap adjBlock ∧
    ∀ i, Event.monitor i ∈ adjointLoop stop t n →
      Event.output i ∈ adjointLoop stop t n := by
  constructor
  · rw [adjointSteps_eq]
    exact adjointLoopAux_eq_flatMap stop (n - t) t
  · intro i
    unfold adjointLoop
    generalize n - t = fuel
    induction fuel generalizing t with
    | zero => intro h; simp [adjointLoopAux] at h
    | succ fuel ih =>
      intro h
      unfold adjointLoopAux at h ⊢
      by_cases hst : stop t = true
      · rw [if_pos hst] at h ⊢
        rcases mem_adjBlock h with h | h | h | h | h | h <;>
          simp_all [adjBlock]
      · rw [if_neg hst] at h ⊢
        rcases List.mem_append.mp h with h | h
        · refine List.mem_append_left _ ?_
          rcases mem_adjBlock h with h | h | h | h | h | h <;>
            simp_all [adjBlock]
        · exact List.mem_append_right _ (ih (t + 1) h)

/-- Witness for C2: a concrete adjoint loop in which `monitor 1` was
called, so `output 1` must appear. -/
theorem claim_C2_witness :
    Event.monitor 1 ∈ adjointLoop (fun _ => false) 0 2 ∧
    Event.output 1 ∈ adjointLoop (fun _ => false) 0 2 :=
  ⟨by decide, (claim_C2 (fun _ => false) 0 2).2 1 (by decide)⟩

/-- Claim C3: from counter `t` to target `n`, both loops take at most
`n - t` steps (zero when `n ≤ t`), strictly fewer when the stop signal
fires on a step that is not the last budgeted one, and a stop signal on
the very first direct step means exactly one step. -/
theorem claim_C3 (stop : Nat → Bool) (t n : Nat) :
    directSteps stop t n ≤ n - t ∧ adjointSteps stop t n ≤ n - t ∧
    (n ≤ t → directSteps stop t n = 0 ∧ adjointSteps stop t n = 0) ∧
    (∀ j, t ≤ j → j + 1 < n → stop j = true →
      directSteps stop t n < n - t ∧ adjointSteps stop t n < n - t) ∧
    (t < n → stop t = true → directSteps stop t n = 1) := by
  rw [directSteps_eq, adjointSteps_eq]
  refine ⟨stepsAux_le _ _ _, stepsAux_le _ _ _, ?_, ?_, ?_⟩
  · intro h
    have h0 : n - t = 0 := by omega
    rw [h0]
    exact ⟨rfl, rfl⟩
  · intro j htj hjn hstop
    have h1 := stepsAux_stop_le stop (n - t) t j htj hstop
    constructor <;> omega
  · intro h hstop
    exact stepsAux_first_stop stop (n - t) t hstop (by omega)

/-- Witness for C3: a stop at iteration 1 of budget 5 takes fewer than
5 steps; `t ≥ n` takes zero steps; stop on the first step takes one. -/
theorem claim_C3_witness :
    directSteps stopAt1 0 5 < 5 - 0 ∧ adjointSteps stopAt1 0 5 < 5 - 0 ∧
    directSteps stopAt1 7 4 = 0 ∧ adjointSteps stopAt1 7 4 = 0 ∧
    directSteps (fun _ => true) 0 5 = 1 := by
  have h1 := (claim_C3 stopAt1 0 5).2.2.2.1 1 (by decide) (by decide) (by decide)
  have h2 := (claim_C3 stopAt1 7 4).2.2.1 (by decide)
  have h3 := (claim_C3 (fun _ => true) 0 5).2.2.2.2 (by decide) rfl
  exact ⟨h1.1, h1.2, h2.1, h2.2, h3⟩

/-- Claim C4: on every execution path, `GetAdaptationData` is only ever
called after both `ComputeMetric` and `SetAdaptationData` have
completed, and `ComputeMetric` completes before `SetAdaptationData` is
called: any trace holding a `getAdaptationData` event splits as
`t1 ++ computeMetric :: t2 ++ setAdaptationData :: t3` with the
`getAdaptationData` event inside `t3`. -/
theorem claim_C4 (cfg : Config) (iVar iPoint : Nat)
    (h : Event.getAdaptationData iVar iPoint ∈ (mainRun cfg).trace) :
    ∃ t1 t2 t3, (mainRun cfg).trace =
      t1 ++ Event.computeMetric :: t2 ++ Event.setAdaptationData :: t3 ∧
      Event.getAdaptationData iVar iPoint ∈ t3 := by
  rcases cfg with ⟨mpi, dc, ec, d, edrv⟩
  cases dc with
  | typeError => simp [mainRun] at h
  | otherError => simp [mainRun] at h
  | ok =>
    cases ec with
    | typeError =>
      exfalso
      simp only [mainRun, List.mem_append, List.mem_singleton] at h
      rcases h with h | h
      · have hh := isSolveEv_of_mem_solvePhases h
        simp [isSolveEv] at hh
      · simp at h
    | otherError =>
      exfalso
      have hh := isSolveEv_of_mem_solvePhases (show _ ∈ solvePhasesEvents d from h)
      simp [isSolveEv] at hh
    | ok =>
      refine ⟨solvePhasesEvents d, [],
        Event.getnPointDomain :: Event.getnVarPar ::
          (extractionEvents (d.nPointDomain 0 0 0) edrv.nVarPar ++
            [Event.postprocessing]), ?_, ?_⟩
      · show solvePhasesEvents d ++
          errorPhaseEvents ⟨mpi, ConstructResult.ok, ConstructResult.ok,
            d, edrv⟩ = _
        unfold errorPhaseEvents
        simp [List.append_assoc]
      replace h : Event.getAdaptationData iVar iPoint ∈
          solvePhasesEvents d ++
            errorPhaseEvents ⟨mpi, ConstructResult.ok, ConstructResult.ok,
              d, edrv⟩ := h
      rcases List.mem_append.mp h with h | h
      · exfalso
        have hh := isSolveEv_of_mem_solvePhases h
        simp [isSolveEv] at hh
      · unfold errorPhaseEvents at h
        simp only [List.mem_cons, List.mem_append, List.mem_singleton,
          reduceCtorEq, false_or] at h
        rcases h with h | h
        · simp only [List.mem_cons, List.mem_append]
          tauto
        · simp at h

/-- Witness for C4 at a concrete run that reaches the extraction loop. -/
theorem claim_C4_witness :
    Event.getAdaptationData 0 0 ∈ (mainRun cfgOk).trace ∧
    ∃ t1 t2 t3, (mainRun cfgOk).trace =
      t1 ++ Event.computeMetric :: t2 ++ Event.setAdaptationData :: t3 ∧
      Event.getAdaptationData 0 0 ∈ t3 :=
  ⟨by decide, claim_C4 cfgOk 0 0 (by decide)⟩

/-- Claim C5: a marker is usable only when its name is in both the
global tag list and the rank-local mapping; when it is missing from
either, the result is the absent marker with all three counts zero,
and such a run is not an error (it still finishes). -/
theorem claim_C5 (d : DriverState) (name : String) (cfg : Config) :
    ((markerID d name).isSome →
      name ∈ d.markerTags ∧ (d.markerIDs.lookup name).isSome) ∧
    ((name ∉ d.markerTags ∨ d.markerIDs.lookup name = none) →
      markerID d name = none ∧ markerCounts d name = (0, 0, 0)) ∧
    (cfg.directConstruct = ConstructResult.ok →
      cfg.errorConstruct = ConstructResult.ok →
      (mainRun cfg).outcome = Outcome.finished) := by
  refine ⟨?_, ?_, ?_⟩
  · intro h
    unfold markerID at h
    by_cases hc : name ∈ d.markerTags ∧ (d.markerIDs.lookup name).isSome
    · exact hc
    · rw [if_neg hc] at h
      simp at h
  · intro h
    have hc : ¬ (name ∈ d.markerTags ∧ (d.markerIDs.lookup name).isSome) := by
      rintro ⟨h1, h2⟩
      rcases h with h | h
      · exact h h1
      · rw [h] at h2
        simp at h2
    have hmid : markerID d name = none := by
      unfold markerID
      rw [if_neg hc]
    refine ⟨hmid, ?_⟩
    unfold markerCounts
    rw [hmid]
  · rcases cfg with ⟨mpi, dc, ec, dd, edrv⟩
    intro hdc hec
    replace hdc : dc = ConstructResult.ok := hdc
    replace hec : ec = ConstructResult.ok := hec
    subst hdc
    subst hec
    rfl

/-- Witness for C5 at Scenario C: `airfoil` is globally known but has
no rank-local marker, so the resolver returns the absent marker with
zero counts and the run still finishes. -/
theorem claim_C5_witness :
    markerID dScenC "airfoil" = none ∧
    markerCounts dScenC "airfoil" = (0, 0, 0) ∧
    (mainRun cfgScenC).outcome = Outcome.finished := by
  have h := claim_C5 dScenC "airfoil" cfgScenC
  exact ⟨(h.2.1 (Or.inr rfl)).1, (h.2.1 (Or.inr rfl)).2, h.2.2 rfl rfl⟩

/-- Claim C6 (amended): for every resolved marker the total count
equals physical plus halo, and the physical count is non-negative
whenever the reported halo count does not exceed the reported total;
when halo exceeds total, the script silently computes a negative
physical count (see the counterexample) instead of raising an error. -/
theorem claim_C6 (d : DriverState) (name : String) (m : Nat)
    (h : markerID d name = some m) :
    (markerCounts d name).1 =
      (markerCounts d name).2.2 + (markerCounts d name).2.1 ∧
    (d.numHaloVertices m ≤ d.numVertices m →
      0 ≤ (markerCounts d name).2.2) := by
  unfold markerCounts
  rw [h]
  constructor
  · simp only
    omega
  · intro hle
    simp only
    omega

/-- Witness for C6 on a consistently-reporting resolved marker. -/
theorem claim_C6_witness :
    (markerCounts sampleDriver "airfoil").1 =
      (markerCounts sampleDriver "airfoil").2.2 +
        (markerCounts sampleDriver "airfoil").2.1 ∧
    0 ≤ (markerCounts sampleDriver "airfoil").2.2 :=
  ⟨(claim_C6 sampleDriver "airfoil" 3 (by decide)).1,
    (claim_C6 sampleDriver "airfoil" 3 (by decide)).2 (by decide)⟩

/-- Counterexample to C6 as stated: a driver reporting 5 halo vertices
on a 3-vertex marker makes the script compute a physical count of `-2`
silently — the run finishes without any error — so the resolved-marker
physical count is not always non-negative and halo exceeding total is
not treated as fatal. -/
theorem claim_C6_counterexample :
    markerID dBad "airfoil" = some 7 ∧
    (markerCounts dBad "airfoil").2.2 = -2 ∧
    (mainRun cfgBad).outcome = Outcome.finished :=
  ⟨by decide, by decide, rfl⟩

theorem diagnostic_not_mem_solvePhases {d : DriverState} {b : Bool} :
    Event.diagnostic b ∉ solvePhasesEvents d := fun h => by
  have hh := isSolveEv_of_mem_solvePhases h
  simp [isSolveEv] at hh

/-- Claim C7 (amended): if construction of either driver fails with a
`TypeError`, the run prints the mismatch diagnostic whose direction is
chosen by the parallel flag and returns early; after any construction
failure (`TypeError` or otherwise) no later phase executes and no
dataset is produced. -/
theorem claim_C7 (cfg : Config) :
    (cfg.directConstruct = ConstructResult.typeError →
      (mainRun cfg).trace = [Event.diagnostic cfg.withMPI] ∧
      (mainRun cfg).outcome = Outcome.earlyReturn) ∧
    (cfg.directConstruct ≠ ConstructResult.ok →
      (mainRun cfg).outcome ≠ Outcome.finished ∧
      (∀ e ∈ (mainRun cfg).trace, isPhaseEv e = false) ∧
      (mainRun cfg).sol = none) ∧
    (cfg.directConstruct = ConstructResult.ok →
      cfg.errorConstruct = ConstructResult.typeError →
      (∃ pre, (mainRun cfg).trace = pre ++ [Event.diagnostic cfg.withMPI]) ∧
      (mainRun cfg).outcome = Outcome.earlyReturn) ∧
    (cfg.errorConstruct ≠ ConstructResult.ok →
      (mainRun cfg).outcome ≠ Outcome.finished ∧
      (∀ e ∈ (mainRun cfg).trace, isErrorPhaseEv e = false) ∧
      (mainRun cfg).sol = none) := by
  rcases cfg with ⟨mpi, dc, ec, d, edrv⟩
  cases dc with
  | typeError =>
    refine ⟨fun _ => ⟨rfl, rfl⟩,
      fun _ => ⟨fun hcon => Outcome.noConfusion hcon, ?_, rfl⟩,
      fun h => ConstructResult.noConfusion h,
      fun _ => ⟨fun hcon => Outcome.noConfusion hcon, ?_, rfl⟩⟩
    · intro e he
      replace he : e ∈ [Event.diagnostic mpi] := he
      simp at he
      subst he
      rfl
    · intro e he
      replace he : e ∈ [Event.diagnostic mpi] := he
      simp at he
      subst he
      rfl
  | otherError =>
    refine ⟨fun h => ConstructResult.noConfusion h,
      fun _ => ⟨fun hcon => Outcome.noConfusion hcon, ?_, rfl⟩,
      fun h => ConstructResult.noConfusion h,
      fun _ => ⟨fun hcon => Outcome.noConfusion hcon, ?_, rfl⟩⟩
    · intro e he
      replace he : e ∈ ([] : List Event) := he
      simp at he
    · intro e he
      replace he : e ∈ ([] : List Event) := he
      simp at he
  | ok =>
    cases ec with
    | typeError =>
      refine ⟨fun h => ConstructResult.noConfusion h,
        fun h => absurd rfl h,
        fun _ _ => ⟨⟨solvePhasesEvents d, rfl⟩, rfl⟩,
        fun _ => ⟨fun hcon => Outcome.noConfusion hcon, ?_, rfl⟩⟩
      intro e he
      replace he : e ∈ solvePhasesEvents d ++ [Event.diagnostic mpi] := he
      rcases List.mem_append.mp he with he | he
      · exact solve_not_errorPhase (isSolveEv_of_mem_solvePhases he)
      · simp at he
        subst he
        rfl
    | otherError =>
      refine ⟨fun h => ConstructResult.noConfusion h,
        fun h => absurd rfl h,
        fun _ h => ConstructResult.noConfusion h,
        fun _ => ⟨fun hcon => Outcome.noConfusion hcon, ?_, rfl⟩⟩
      intro e he
      replace he : e ∈ solvePhasesEvents d := he
      exact solve_not_errorPhase (isSolveEv_of_mem_solvePhases he)
    | ok =>
      exact ⟨fun h => ConstructResult.noConfusion h,
        fun h => absurd rfl h,
        fun _ h => ConstructResult.noConfusion h,
        fun h => absurd rfl h⟩

/-- Witness for C7: a `TypeError` at the direct construction under
`--parallel` yields the serial-build diagnostic and an early return; a
`TypeError` at the error-estimation construction without `--parallel`
yields the parallel-build diagnostic after the solve phases. -/
theorem claim_C7_witness :
    ((mainRun cfgTypeErr).trace = [Event.diagnostic true] ∧
      (mainRun cfgTypeErr).outcome = Outcome.earlyReturn) ∧
    ((∃ pre, (mainRun cfgErrTypeErr).trace =
        pre ++ [Event.diagnostic false]) ∧
      (mainRun cfgErrTypeErr).outcome = Outcome.earlyReturn) :=
  ⟨(claim_C7 cfgTypeErr).1 rfl, (claim_C7 cfgErrTypeErr).2.2.1 rfl rfl⟩

/-- Counterexample to C7 as stated: a construction failure that is not
a `TypeError` aborts the run with no mismatch diagnostic at all, so not
every construction failure produces the direction-distinguishing
diagnostic. -/
theorem claim_C7_counterexample :
    (mainRun cfgOtherErr).trace = [] ∧
    (∀ b, Event.diagnostic b ∉ (mainRun cfgOtherErr).trace) ∧
    (mainRun cfgOtherErr).outcome = Outcome.exn := by
  refine ⟨rfl, ?_, rfl⟩
  intro b h
  replace h : Event.diagnostic b ∈ ([] : List Event) := h
  simp at h

/-- Claim C8 (amended): at extraction, the dataset's row count is the
direct Solver Driver's `GetnPointDomain` with zone, time-level and
mesh-level indices all fixed to 0, and its column count is the
Error-Estimation Driver's `GetnVarPar` (the point count is *not* taken
from the error-estimation driver — see the counterexample). -/
theorem claim_C8 (cfg : Config) (hdc : cfg.directConstruct = ConstructResult.ok)
    (hec : cfg.errorConstruct = ConstructResult.ok) :
    ∃ sol, (mainRun cfg).sol = some sol ∧
      sol.length = cfg.driver.nPointDomain 0 0 0 ∧
      ∀ row ∈ sol, row.length = cfg.errDriver.nVarPar := by
  rcases cfg with ⟨mpi, dc, ec, d, edrv⟩
  replace hdc : dc = ConstructResult.ok := hdc
  replace hec : ec = ConstructResult.ok := hec
  subst hdc
  subst hec
  exact ⟨_, rfl, SolRun_length _ _ _, SolRun_row_length _ _ _⟩

/-- Witness for C8 at a concrete successful run. -/
theorem claim_C8_witness :
    ∃ sol, (mainRun cfgOk).sol = some sol ∧
      sol.length = cfgOk.driver.nPointDomain 0 0 0 ∧
      ∀ row ∈ sol, row.length = cfgOk.errDriver.nVarPar :=
  claim_C8 cfgOk rfl rfl

/-- Counterexample to C8 as stated: in a run whose error-estimation
driver would report 3 local points while the direct driver reports 2,
the dataset has 2 rows — the local point count that sizes the dataset
comes from the direct driver's `GetnPointDomain(0,0,0)`, not from the
Error-Estimation Driver. -/
theorem claim_C8_counterexample :
    ∃ sol, (mainRun cfgOk).sol = some sol ∧ sol.length = 2 ∧
      cfgOk.errDriver.localPointCount = 3 ∧
      sol.length ≠ cfgOk.errDriver.localPointCount := by
  refine ⟨SolRun 2 2 sampleErrDriver.adaptationData, rfl, ?_, rfl, ?_⟩ <;>
    decide

theorem vertex_events_not_mem_rest {e : Event} (he : isErrorPhaseEv e = true) :
    ∀ m, e ≠ Event.getNumberVertices m ∧ e ≠ Event.getNumberHaloVertices m := by
  intro m
  cases e <;> simp [isErrorPhaseEv] at *

/-- Claim C9: the vertex-count queries run only when the marker
resolved on this rank; when it is absent no such query is made and the
three counts keep their initial zero values. -/
theorem claim_C9 (cfg : Config) (hdc : cfg.directConstruct = ConstructResult.ok) :
    (markerID cfg.driver "airfoil" = none →
      (∀ m, Event.getNumberVertices m ∉ (mainRun cfg).trace ∧
        Event.getNumberHaloVertices m ∉ (mainRun cfg).trace) ∧
      markerCounts cfg.driver "airfoil" = (0, 0, 0)) ∧
    (∀ m, markerID cfg.driver "airfoil" = some m →
      Event.getNumberVertices m ∈ (mainRun cfg).trace ∧
      Event.getNumberHaloVertices m ∈ (mainRun cfg).trace) := by
  rcases cfg with ⟨mpi, dc, ec, d, edrv⟩
  replace hdc : dc = ConstructResult.ok := hdc
  subst hdc
  have hsolve : ∀ (hm : markerID d "airfoil" = none) (m : Nat),
      Event.getNumberVertices m ∉ solvePhasesEvents d ∧
      Event.getNumberHaloVertices m ∉ solvePhasesEvents d := by
    intro hm m
    constructor <;> intro h <;>
    · rcases List.mem_append.mp h with h | h
      · rcases List.mem_append.mp h with h | h
        · rcases mem_markerEvents h with h | h | ⟨m', hm', _⟩
          · exact Event.noConfusion h
          · exact Event.noConfusion h
          · rw [hm] at hm'
            exact Option.noConfusion hm'
        · rcases mem_directLoopAux h with ⟨i, hi⟩
          exact Event.noConfusion hi
      · rcases mem_adjointLoopAux h with ⟨i, hi⟩
        rcases mem_adjBlock hi with h' | h' | h' | h' | h' | h' <;>
          exact Event.noConfusion h'
  have hpos : ∀ (m : Nat), markerID d "airfoil" = some m →
      Event.getNumberVertices m ∈ solvePhasesEvents d ∧
      Event.getNumberHaloVertices m ∈ solvePhasesEvents d := by
    intro m hm
    constructor <;>
    · refine List.mem_append_left _ (List.mem_append_left _ ?_)
      unfold markerEvents
      rw [hm]
      simp
  cases ec with
  | typeError =>
    refine ⟨fun hm => ⟨fun m => ?_, by unfold markerCounts; rw [hm]⟩,
      fun m hm => ?_⟩
    · have hs := hsolve hm m
      constructor <;> intro h <;>
        replace h : _ ∈ solvePhasesEvents d ++ [Event.diagnostic mpi] := h <;>
        rcases List.mem_append.mp h with h | h
      · exact hs.1 h
      · simp at h
      · exact hs.2 h
      · simp at h
    · have hp := hpos m hm
      exact ⟨List.mem_append_left _ hp.1, List.mem_append_left _ hp.2⟩
  | otherError =>
    refine ⟨fun hm => ⟨fun m => ?_, by unfold markerCounts; rw [hm]⟩,
      fun m hm => ?_⟩
    · have hs := hsolve hm m
      exact ⟨fun h => hs.1 h, fun h => hs.2 h⟩
    · have hp := hpos m hm
      exact ⟨hp.1, hp.2⟩
  | ok =>
    refine ⟨fun hm => ⟨fun m => ?_, by unfold markerCounts; rw [hm]⟩,
      fun m hm => ?_⟩
    · have hs := hsolve hm m
      constructor <;> intro h <;>
        replace h : _ ∈ solvePhasesEvents d ++
          errorPhaseEvents ⟨mpi, ConstructResult.ok, ConstructResult.ok,
            d, edrv⟩ := h <;>
        rcases List.mem_append.mp h with h | h
      · exact hs.1 h
      · exact ((vertex_events_not_mem_rest
          (isErrorPhaseEv_of_mem_errorPhase h) m).1 rfl).elim
      · exact hs.2 h
      · exact ((vertex_events_not_mem_rest
          (isErrorPhaseEv_of_mem_errorPhase h) m).2 rfl).elim
    · have hp := hpos m hm
      exact ⟨List.mem_append_left _ hp.1, List.mem_append_left _ hp.2⟩

/-- Witness for C9: on a rank where `airfoil` resolves to marker 3 the
two vertex queries appear in the trace; on the Scenario C rank no
vertex query appears and the counts are all zero. -/
theorem claim_C9_witness :
    (Event.getNumberVertices 3 ∈ (mainRun cfgOk).trace ∧
      Event.getNumberHaloVertices 3 ∈ (mainRun cfgOk).trace) ∧
    (∀ m, Event.getNumberVertices m ∉ (mainRun cfgScenC).trace ∧
      Event.getNumberHaloVertices m ∉ (mainRun cfgScenC).trace) ∧
    markerCounts cfgScenC.driver "airfoil" = (0, 0, 0) :=
  ⟨(claim_C9 cfgOk rfl).2 3 (by decide),
    ((claim_C9 cfgScenC rfl).1 (by decide)).1,
    ((claim_C9 cfgScenC rfl).1 (by decide)).2⟩

/-- Claim C10: only `TypeError` is caught at either construction point
and converted into the mismatch diagnostic followed by a normal return;
any other exception propagates uncaught, terminating the run without
printing the diagnostic. -/
theorem claim_C10 (cfg : Config) :
    (cfg.directConstruct = ConstructResult.typeError →
      (mainRun cfg).outcome = Outcome.earlyReturn ∧
      Event.diagnostic cfg.withMPI ∈ (mainRun cfg).trace) ∧
    (cfg.directConstruct = ConstructResult.otherError →
      (mainRun cfg).outcome = Outcome.exn ∧
      ∀ b, Event.diagnostic b ∉ (mainRun cfg).trace) ∧
    (cfg.directConstruct = ConstructResult.ok →
      cfg.errorConstruct = ConstructResult.typeError →
      (mainRun cfg).outcome = Outcome.earlyReturn ∧
      Event.diagnostic cfg.withMPI ∈ (mainRun cfg).trace) ∧
    (cfg.directConstruct = ConstructResult.ok →
      cfg.errorConstruct = ConstructResult.otherError →
      (mainRun cfg).outcome = Outcome.exn ∧
      ∀ b, Event.diagnostic b ∉ (mainRun cfg).trace) := by
  rcases cfg with ⟨mpi, dc, ec, d, edrv⟩
  cases dc with
  | typeError =>
    refine ⟨fun _ => ⟨rfl, ?_⟩, fun h => ConstructResult.noConfusion h,
      fun h => ConstructResult.noConfusion h,
      fun h => ConstructResult.noConfusion h⟩
    show Event.diagnostic mpi ∈ [Event.diagnostic mpi]
    simp
  | otherError =>
    refine ⟨fun h => ConstructResult.noConfusion h, fun _ => ⟨rfl, ?_⟩,
      fun h => ConstructResult.noConfusion h,
      fun h => ConstructResult.noConfusion h⟩
    intro b h
    replace h : Event.diagnostic b ∈ ([] : List Event) := h
    simp at h
  | ok =>
    cases ec with
    | typeError =>
      refine ⟨fun h => ConstructResult.noConfusion h,
        fun h => ConstructResult.noConfusion h,
        fun _ _ => ⟨rfl, ?_⟩, fun _ h => ConstructResult.noConfusion h⟩
      exact List.mem_append_right _ (by simp)
    | otherError =>
      refine ⟨fun h => ConstructResult.noConfusion h,
        fun h => ConstructResult.noConfusion h,
        fun _ h => ConstructResult.noConfusion h, fun _ _ => ⟨rfl, ?_⟩⟩
      intro b h
      exact diagnostic_not_mem_solvePhases h
    | ok =>
      exact ⟨fun h => ConstructResult.noConfusion h,
        fun h => ConstructResult.noConfusion h,
        fun _ h => ConstructResult.noConfusion h,
        fun _ h => ConstructResult.noConfusion h⟩

/-- Witness for C10 exercising all four failure combinations. -/
theorem claim_C10_witness :
    ((mainRun cfgTypeErr).outcome = Outcome.earlyReturn ∧
      Event.diagnostic true ∈ (mainRun cfgTypeErr).trace) ∧
    ((mainRun cfgOtherErr).outcome = Outcome.exn ∧
      ∀ b, Event.diagnostic b ∉ (mainRun cfgOtherErr).trace) ∧
    ((mainRun cfgErrTypeErr).outcome = Outcome.earlyReturn ∧
      Event.diagnostic false ∈ (mainRun cfgErrTypeErr).trace) ∧
    ((mainRun cfgErrOtherErr).outcome = Outcome.exn ∧
      ∀ b, Event.diagnostic b ∉ (mainRun cfgErrOtherErr).trace) :=
  ⟨(claim_C10 cfgTypeErr).1 rfl, (claim_C10 cfgOtherErr).2.1 rfl,
    (claim_C10 cfgErrTypeErr).2.2.1 rfl rfl,
    (claim_C10 cfgErrOtherErr).2.2.2 rfl rfl⟩
